import Mathlib

/-!
Shallow embedding of the object-detection core of `bish9oi/object-detection`:
the detector adapter and proximity tracker in `src/utils/objectDetection.ts`
(class `ObjectDetector`) and the ROI monitor in `src/components/ROIAlerts.tsx`
(component `ROIAlerts`).

Modelling conventions:
  * JavaScript numbers on the data path are modelled as `ℚ` (raw model
    predictions) and `ℤ` (rounded pixel fields).
  * `Math.round` is `jsRound q = ⌊q + 1/2⌋` (JS rounds half toward +∞).
  * The squared Euclidean distance replaces `Math.sqrt(dx² + dy²)`;
    `sqrt d < c` on nonnegative reals holds iff `d < c²`, so comparisons
    against the 100-pixel threshold and against the running minimum are
    preserved exactly (`100² = 10000`).
  * The mutable class fields (`trackingId`, `previousDetections`, `model`,
    `isLoading`) become an explicit `DetectorState` threaded through the
    operations; `async`/`try`/`catch` becomes `Except`, with the outcome of
    the opaque external model call passed in as an `Except` argument.
-/

namespace OD

/-- JavaScript `Math.round`: round to nearest integer, half toward +∞. -/
def jsRound (q : ℚ) : ℤ := ⌊q + 1/2⌋

/-- A raw prediction from the COCO-SSD model: bounding box `[x, y, width,
height]`, class label, and confidence score (field `class` is renamed `cls`,
`class` being a Lean keyword). -/
structure Prediction where
  bboxX : ℚ
  bboxY : ℚ
  bboxW : ℚ
  bboxH : ℚ
  cls : String
  score : ℚ
  deriving DecidableEq, Repr

/-- The `DetectionResult` record of `objectDetection.ts`. Pixel fields are
the rounded integers the code stores; `trackId` is optional, absent until the
tracker assigns it. -/
structure DetectionResult where
  id : String
  label : String
  confidence : ℚ
  x : ℤ
  y : ℤ
  width : ℤ
  height : ℤ
  centerX : ℤ
  centerY : ℤ
  area : ℤ
  aspectRatio : ℚ
  trackId : Option ℕ := none
  timestamp : ℕ
  deriving DecidableEq, Repr

/-- The body of the `predictions.map` callback in `detectObjects`
(objectDetection.ts lines 61-82): derive center, area and aspect ratio from
the raw box, round pixel fields to the nearest integer and the aspect ratio
to 2 decimals, and build the per-frame id from the timestamp and index. -/
def mkDetection (timestamp : ℕ) (index : ℕ) (p : Prediction) : DetectionResult :=
  { id := toString timestamp ++ "-" ++ toString index
    label := p.cls
    confidence := p.score
    x := jsRound p.bboxX
    y := jsRound p.bboxY
    width := jsRound p.bboxW
    height := jsRound p.bboxH
    centerX := jsRound (p.bboxX + p.bboxW / 2)
    centerY := jsRound (p.bboxY + p.bboxH / 2)
    area := jsRound (p.bboxW * p.bboxH)
    aspectRatio := (jsRound (p.bboxW / p.bboxH * 100) : ℚ) / 100
    timestamp := timestamp }

/-- The normalization step of `detectObjects`: map every raw prediction to a
`DetectionResult`, indices following the model's output order. -/
def normalize (timestamp : ℕ) (preds : List Prediction) : List DetectionResult :=
  preds.mapIdx (mkDetection timestamp)

/-- Squared Euclidean distance between the centers of two detections.  The
source computes `Math.sqrt(dx² + dy²)` and compares it with the running
minimum and the 100-pixel threshold; squaring preserves both comparisons. -/
def distSq (a b : DetectionResult) : ℤ :=
  (a.centerX - b.centerX) ^ 2 + (a.centerY - b.centerY) ^ 2

/-- One step of the inner `previousDetections.forEach` loop of
`assignTrackingIds` (objectDetection.ts lines 103-115): the accumulator holds
`bestMatch` together with `minDistance` (`none` encodes
`bestMatch = null, minDistance = Infinity`); a previous detection replaces it
when the labels agree and its distance beats the running minimum while being
under the threshold (`distance < 100`, i.e. `distSq < 10000`). -/
def updateBest (det : DetectionResult) (acc : Option (DetectionResult × ℤ))
    (prev : DetectionResult) : Option (DetectionResult × ℤ) :=
  if prev.label = det.label then
    match acc with
    | none =>
      if distSq det prev < 10000 then some (prev, distSq det prev) else none
    | some (_, m) =>
      if distSq det prev < m ∧ distSq det prev < 10000 then
        some (prev, distSq det prev)
      else acc
  else acc

/-- The candidate search of `assignTrackingIds` for one current detection:
fold the inner loop over the previous frame's detections. -/
def bestMatch (prevs : List DetectionResult) (det : DetectionResult) :
    Option (DetectionResult × ℤ) :=
  prevs.foldl (updateBest det) none

/-- The outer `trackedDetections.forEach` loop of `assignTrackingIds`
(objectDetection.ts lines 95-125), with the mutable `this.trackingId` counter
threaded explicitly: each current detection, in input order, either inherits
the best match's track id or receives a fresh id `++trackingId`. -/
def assignTrackingIds (prevs : List DetectionResult) (counter : ℕ) :
    List DetectionResult → List DetectionResult × ℕ
  | [] => ([], counter)
  | det :: rest =>
    match bestMatch prevs det with
    | some (b, _) =>
      let (tail, c) := assignTrackingIds prevs counter rest
      ({ det with trackId := b.trackId } :: tail, c)
    | none =>
      let (tail, c) := assignTrackingIds prevs (counter + 1) rest
      ({ det with trackId := some (counter + 1) } :: tail, c)

/-- The mutable fields of class `ObjectDetector`: whether `this.model` is
non-null, the `isLoading` flag, the track-id counter, and the previous
frame's tracked detections. -/
structure DetectorState where
  modelLoaded : Bool
  isLoading : Bool
  trackingId : ℕ
  previousDetections : List DetectionResult
  deriving DecidableEq, Repr

/-- The state of a freshly constructed `ObjectDetector`. -/
def initialState : DetectorState :=
  { modelLoaded := false, isLoading := false, trackingId := 0,
    previousDetections := [] }

/-- Method `loadModel` (objectDetection.ts lines 26-48).  The external
`cocoSsd.load` outcome is passed in as `loadResult`.  If a model is already
present or a load is in flight the call returns immediately; otherwise a
failed load is re-thrown (after the `finally` clears `isLoading`) and a
successful load installs the model. -/
def loadModel (st : DetectorState) (loadResult : Except String Unit) :
    Except String DetectorState :=
  if st.modelLoaded ∨ st.isLoading then Except.ok st
  else
    match loadResult with
    | Except.error e => Except.error e
    | Except.ok _ =>
      Except.ok { st with modelLoaded := true, isLoading := false }

/-- Method `detectObjects` (objectDetection.ts lines 50-93).  The outcome of
the opaque `this.model.detect` call is passed in as `modelResult` and
`Date.now()` as `timestamp`.  An unloaded model throws; a failing model call
is caught, returning `[]` with the state untouched; otherwise the raw
predictions are normalized, run through `assignTrackingIds`, and the tracked
list both replaces `this.previousDetections` and is returned. -/
def detectObjects (st : DetectorState)
    (modelResult : Except String (List Prediction)) (timestamp : ℕ) :
    Except String (DetectorState × List DetectionResult) :=
  if st.modelLoaded = false then
    Except.error "Model not loaded. Call loadModel() first."
  else
    match modelResult with
    | Except.error _ => Except.ok (st, [])
    | Except.ok preds =>
      let detections := normalize timestamp preds
      let (tracked, c) := assignTrackingIds st.previousDetections st.trackingId detections
      Except.ok
        ({ st with trackingId := c, previousDetections := tracked }, tracked)

/-! ### ROI monitor (`src/components/ROIAlerts.tsx`) -/

/-- Zone kinds of the `ROIZone` interface. -/
inductive ZoneType where
  | restricted
  | monitored
  | counting
  deriving DecidableEq, Repr

/-- Alert severities of the alert record in `ROIAlerts.tsx`. -/
inductive Severity where
  | low
  | medium
  | high
  deriving DecidableEq, Repr

/-- The `ROIZone` interface: a named rectangle with a type, an active flag
and a running alert counter (the nested `coordinates` object is flattened). -/
structure ROIZone where
  id : String
  name : String
  type : ZoneType
  x : ℚ
  y : ℚ
  width : ℚ
  height : ℚ
  alertCount : ℕ
  isActive : Bool
  color : String
  deriving DecidableEq, Repr

/-- An entry of the alert history state in `ROIAlerts.tsx`. -/
structure Alert where
  id : String
  zoneName : String
  objectType : String
  timestamp : ℕ
  severity : Severity
  deriving DecidableEq, Repr

/-- The two React state cells of the `ROIAlerts` component that the claims
concern: the zone list and the alert history. -/
structure ROIState where
  zones : List ROIZone
  alerts : List Alert
  deriving DecidableEq, Repr

/-- First zone of the initial `useState` zone list in `ROIAlerts.tsx`
(lines 26-34). -/
def zoneA : ROIZone :=
  { id := "1", name := "Restricted Area", type := ZoneType.restricted,
    x := 100, y := 100, width := 200, height := 150,
    alertCount := 0, isActive := true, color := "#ef4444" }

/-- Second zone of the initial `useState` zone list in `ROIAlerts.tsx`
(lines 35-43). -/
def zoneB : ROIZone :=
  { id := "2", name := "Monitoring Zone", type := ZoneType.monitored,
    x := 350, y := 200, width := 180, height := 120,
    alertCount := 0, isActive := true, color := "#f59e0b" }

/-- The initial zone list of the `useState` in `ROIAlerts.tsx`
(lines 25-44). -/
def initialZones : List ROIZone := [zoneA, zoneB]

/-- The `isInZone` test of `ROIAlerts.tsx` (lines 64-74): the detection's
center `(x + width/2, y + height/2)` — recomputed from the rounded integer
fields — lies inside the zone rectangle, boundaries included. -/
def inZone (det : DetectionResult) (zone : ROIZone) : Bool :=
  let cx : ℚ := (det.x : ℚ) + (det.width : ℚ) / 2
  let cy : ℚ := (det.y : ℚ) + (det.height : ℚ) / 2
  decide (zone.x ≤ cx) && decide (cx ≤ zone.x + zone.width) &&
    decide (zone.y ≤ cy) && decide (cy ≤ zone.y + zone.height)

/-- The alert object built in `ROIAlerts.tsx` lines 77-83, with `Date.now()`
and `new Date()` passed in as `ts`. -/
def mkAlert (ts : ℕ) (det : DetectionResult) (zone : ROIZone) : Alert :=
  { id := toString ts ++ "-" ++ det.id
    zoneName := zone.name
    objectType := det.label
    timestamp := ts
    severity := Severity.high }

/-- The body of the inner `zones.forEach` in the violation-check effect
(`ROIAlerts.tsx` lines 61-92): inactive zones are skipped; an occupied
restricted zone prepends a high-severity alert to the history truncated to
its 9 newest entries (`[newAlert, ...prev.slice(0, 9)]`) and increments the
alert counter of every stored zone with the matching id. -/
def violationStep (ts : ℕ) (det : DetectionResult) (st : ROIState)
    (zone : ROIZone) : ROIState :=
  if zone.isActive = false then st
  else if inZone det zone ∧ zone.type = ZoneType.restricted then
    { alerts := mkAlert ts det zone :: st.alerts.take 9
      zones := st.zones.map fun z =>
        if z.id = zone.id then { z with alertCount := z.alertCount + 1 } else z }
  else st

/-- The full violation-check effect (`ROIAlerts.tsx` lines 59-94): for every
detection, every zone of the render-time snapshot is checked; the functional
state updates accumulate left to right. -/
def checkViolations (ts : ℕ) (st : ROIState) (dets : List DetectionResult) :
    ROIState :=
  let snapshot := st.zones
  dets.foldl (fun s det => snapshot.foldl (violationStep ts det) s) st

/-- Handler `addZone` of `ROIAlerts.tsx` (lines 96-107), with `Date.now()`
passed in as `ts`. -/
def addZone (ts : ℕ) (zones : List ROIZone) : List ROIZone :=
  zones ++
    [ { id := toString ts, name := "Zone " ++ toString (zones.length + 1),
        type := ZoneType.monitored, x := 50, y := 50, width := 150,
        height := 100, alertCount := 0, isActive := true, color := "#10b981" } ]

/-- Handler `removeZone` of `ROIAlerts.tsx` (lines 109-111). -/
def removeZone (zoneId : String) (zones : List ROIZone) : List ROIZone :=
  zones.filter fun z => z.id ≠ zoneId

/-- Handler `toggleZone` of `ROIAlerts.tsx` (lines 113-117). -/
def toggleZone (zoneId : String) (zones : List ROIZone) : List ROIZone :=
  zones.map fun z => if z.id = zoneId then { z with isActive := !z.isActive } else z

/-- A minimal concrete detection record for test scenarios: a zero-size box
at `(cx, cy)`, so its center is `(cx, cy)` under both the tracker's stored
center and the ROI monitor's recomputed one. -/
def testDet (label : String) (cx cy : ℤ) (tid : Option ℕ) : DetectionResult :=
  { id := "t", label := label, confidence := 1, x := cx, y := cy, width := 0,
    height := 0, centerX := cx, centerY := cy, area := 0, aspectRatio := 1,
    trackId := tid, timestamp := 0 }

/-! ### Helper lemmas -/

/-- Rounding moves a rational by at most one half. -/
lemma jsRound_close (q : ℚ) : |((jsRound q : ℤ) : ℚ) - q| ≤ 1 / 2 := by
  have h1 := Int.floor_le (q + 1 / 2)
  have h2 := Int.lt_floor_add_one (q + 1 / 2)
  rw [jsRound, abs_le]
  constructor <;> push_cast at h1 h2 ⊢ <;> linarith

/-! ### C2: adapter geometry -/

/-- C2: every detection record produced by the adapter has its pixel fields
rounded to the nearest integer, its center within ±1 of `(x + width/2,
y + height/2)` and its area within ±1 of `width × height` (both computed from
the raw box), and its aspect ratio equal to `width/height` rounded to two
decimals; the prediction `x=100, y=100, width=50, height=100` yields center
`(125, 150)`, area `5000` and aspect ratio `0.5`. -/
theorem adapter_geometry_spec :
    (∀ (ts i : ℕ) (p : Prediction),
      (mkDetection ts i p).x = jsRound p.bboxX ∧
      (mkDetection ts i p).y = jsRound p.bboxY ∧
      (mkDetection ts i p).width = jsRound p.bboxW ∧
      (mkDetection ts i p).height = jsRound p.bboxH ∧
      |((mkDetection ts i p).centerX : ℚ) - (p.bboxX + p.bboxW / 2)| ≤ 1 ∧
      |((mkDetection ts i p).centerY : ℚ) - (p.bboxY + p.bboxH / 2)| ≤ 1 ∧
      |((mkDetection ts i p).area : ℚ) - p.bboxW * p.bboxH| ≤ 1 ∧
      (mkDetection ts i p).aspectRatio = (jsRound (p.bboxW / p.bboxH * 100) : ℚ) / 100) ∧
    (∀ (ts i : ℕ) (s : ℚ),
      (mkDetection ts i ⟨100, 100, 50, 100, "person", s⟩).centerX = 125 ∧
      (mkDetection ts i ⟨100, 100, 50, 100, "person", s⟩).centerY = 150 ∧
      (mkDetection ts i ⟨100, 100, 50, 100, "person", s⟩).area = 5000 ∧
      (mkDetection ts i ⟨100, 100, 50, 100, "person", s⟩).aspectRatio = 1 / 2) := by
  constructor
  · intro ts i p
    refine ⟨rfl, rfl, rfl, rfl, ?_, ?_, ?_, rfl⟩ <;>
      exact le_trans (jsRound_close _) (by norm_num)
  · intro ts i s
    refine ⟨?_, ?_, ?_, ?_⟩ <;> norm_num [mkDetection, jsRound]

/-! ### C5, C8, C9, C10: detector control flow and state effects -/

/-- C5: `detectObjects` throws exactly when the model is unloaded; with a
loaded model a failing model call yields `[]` instead of an error, while
`loadModel` (when it actually attempts a load) re-throws a load failure. -/
theorem error_handling_spec :
    (∀ (st : DetectorState) (r : Except String (List Prediction)) (ts : ℕ),
      (∃ e, detectObjects st r ts = Except.error e) ↔ st.modelLoaded = false) ∧
    (∀ (st : DetectorState) (e : String) (ts : ℕ), st.modelLoaded = true →
      detectObjects st (Except.error e) ts = Except.ok (st, [])) ∧
    (∀ (st : DetectorState) (e : String),
      st.modelLoaded = false → st.isLoading = false →
      loadModel st (Except.error e) = Except.error e) := by
  refine ⟨?_, ?_, ?_⟩
  · intro st r ts
    constructor
    · intro ⟨e, he⟩
      by_contra h
      simp only [Bool.not_eq_false] at h
      unfold detectObjects at he
      simp [h] at he
      cases r with
      | error f => simp at he
      | ok preds => simp at he
    · intro h
      exact ⟨"Model not loaded. Call loadModel() first.",
        by unfold detectObjects; simp [h]⟩
  · intro st e ts h
    unfold detectObjects
    simp [h]
  · intro st e h1 h2
    unfold loadModel
    simp [h1, h2]

/-- C5 witness at a concrete state. -/
theorem error_handling_spec_witness :
    detectObjects { initialState with modelLoaded := true } (Except.error "boom") 0 =
      Except.ok ({ initialState with modelLoaded := true }, []) ∧
    loadModel initialState (Except.error "down") = Except.error "down" := by
  refine ⟨error_handling_spec.2.1 _ "boom" 0 rfl, error_handling_spec.2.2 _ "down" rfl rfl⟩

/-- C8: a successful `detectObjects` call stores exactly the returned tracked
detection list as the new previous-frame set. -/
theorem previous_replaced :
    ∀ (st : DetectorState) (preds : List Prediction) (ts : ℕ),
      st.modelLoaded = true →
      ∃ st' out, detectObjects st (Except.ok preds) ts = Except.ok (st', out) ∧
        st'.previousDetections = out := by
  intro st preds ts h
  unfold detectObjects
  simp [h]

/-- C8 witness at a concrete state. -/
theorem previous_replaced_witness :
    ∃ st' out,
      detectObjects { initialState with modelLoaded := true } (Except.ok []) 0 =
        Except.ok (st', out) ∧ st'.previousDetections = out :=
  previous_replaced { initialState with modelLoaded := true } [] 0 rfl

/-- C9: on a successful frame, `detectObjects` factors as the pure
normalization step (`normalize`, a function of the timestamp and raw
predictions only — it takes no tracker state) followed by the tracking step;
all state mutation (`trackingId`, `previousDetections`) is performed by the
tracking step on `normalize`'s output, and the model/loading flags are
untouched. -/
theorem adapter_pure_step :
    ∀ (st : DetectorState) (preds : List Prediction) (ts : ℕ),
      st.modelLoaded = true →
      detectObjects st (Except.ok preds) ts =
        Except.ok
          ({ st with
              trackingId :=
                (assignTrackingIds st.previousDetections st.trackingId
                  (normalize ts preds)).2
              previousDetections :=
                (assignTrackingIds st.previousDetections st.trackingId
                  (normalize ts preds)).1 },
            (assignTrackingIds st.previousDetections st.trackingId
              (normalize ts preds)).1) := by
  intro st preds ts h
  unfold detectObjects
  simp [h]

/-- C9 witness at a concrete state. -/
theorem adapter_pure_step_witness :
    detectObjects { initialState with modelLoaded := true } (Except.ok []) 3 =
      Except.ok
        ({ { initialState with modelLoaded := true } with
            trackingId := (assignTrackingIds [] 0 (normalize 3 [])).2
            previousDetections := (assignTrackingIds [] 0 (normalize 3 [])).1 },
          (assignTrackingIds [] 0 (normalize 3 [])).1) :=
  adapter_pure_step { initialState with modelLoaded := true } [] 3 rfl

/-- C10: when the model call fails, `detectObjects` returns `[]` with the
tracker state byte-for-byte unchanged: the counter is not incremented and the
previous-frame snapshot is not replaced. -/
theorem failed_frame_state_unchanged :
    ∀ (st : DetectorState) (e : String) (ts : ℕ),
      st.modelLoaded = true →
      detectObjects st (Except.error e) ts = Except.ok (st, []) ∧
      ∀ st' out, detectObjects st (Except.error e) ts = Except.ok (st', out) →
        st'.trackingId = st.trackingId ∧
        st'.previousDetections = st.previousDetections ∧ out = [] := by
  intro st e ts h
  have hd : detectObjects st (Except.error e) ts = Except.ok (st, []) := by
    unfold detectObjects; simp [h]
  refine ⟨hd, ?_⟩
  intro st' out h'
  rw [hd] at h'
  injection h' with h''
  obtain ⟨h1, h2⟩ := Prod.mk.injEq .. ▸ (by exact h'' : (st, ([] : List DetectionResult)) = (st', out))
  exact ⟨by rw [← h1], by rw [← h1], h2.symm⟩

/-! ### Tracker matching lemmas (for C1, C6, C7) -/

/-- Invariant of the inner candidate-search loop: after scanning `seen`, a
`none` accumulator means every same-label candidate seen so far is at least
the threshold away, and a `some (b, m)` accumulator is a same-label member of
`seen` at squared distance `m`, under the threshold and minimal among the
same-label candidates seen so far. -/
def MatchInv (det : DetectionResult) (seen : List DetectionResult) :
    Option (DetectionResult × ℤ) → Prop
  | none => ∀ p ∈ seen, p.label = det.label → 10000 ≤ distSq det p
  | some (b, m) => b ∈ seen ∧ b.label = det.label ∧ m = distSq det b ∧
      m < 10000 ∧ ∀ p ∈ seen, p.label = det.label → m ≤ distSq det p

lemma updateBest_inv (det prev : DetectionResult) (seen : List DetectionResult)
    (acc : Option (DetectionResult × ℤ)) (h : MatchInv det seen acc) :
    MatchInv det (seen ++ [prev]) (updateBest det acc prev) := by
  by_cases hl : prev.label = det.label
  · cases acc with
    | none =>
      simp only [updateBest]
      rw [if_pos hl]
      by_cases hd : distSq det prev < 10000
      · rw [if_pos hd]
        refine ⟨by simp, hl, rfl, hd, ?_⟩
        intro p hp hpl
        rcases List.mem_append.mp hp with hp' | hp'
        · exact le_trans (le_of_lt hd) (h p hp' hpl)
        · simp only [List.mem_singleton] at hp'
          subst hp'
          exact le_refl _
      · rw [if_neg hd]
        intro p hp hpl
        rcases List.mem_append.mp hp with hp' | hp'
        · exact h p hp' hpl
        · simp only [List.mem_singleton] at hp'
          subst hp'
          omega
    | some bm =>
      obtain ⟨b, m⟩ := bm
      obtain ⟨hmem, hbl, hm, hlt, hmin⟩ := h
      simp only [updateBest]
      rw [if_pos hl]
      by_cases hc : distSq det prev < m ∧ distSq det prev < 10000
      · rw [if_pos hc]
        refine ⟨by simp, hl, rfl, hc.2, ?_⟩
        intro p hp hpl
        rcases List.mem_append.mp hp with hp' | hp'
        · exact le_trans (le_of_lt hc.1) (hmin p hp' hpl)
        · simp only [List.mem_singleton] at hp'
          subst hp'
          exact le_refl _
      · rw [if_neg hc]
        refine ⟨List.mem_append.mpr (Or.inl hmem), hbl, hm, hlt, ?_⟩
        intro p hp hpl
        rcases List.mem_append.mp hp with hp' | hp'
        · exact hmin p hp' hpl
        · simp only [List.mem_singleton] at hp'
          subst hp'
          omega
  · cases acc with
    | none =>
      simp only [updateBest]
      rw [if_neg hl]
      intro p hp hpl
      rcases List.mem_append.mp hp with hp' | hp'
      · exact h p hp' hpl
      · simp only [List.mem_singleton] at hp'
        subst hp'
        exact absurd hpl hl
    | some bm =>
      obtain ⟨b, m⟩ := bm
      obtain ⟨hmem, hbl, hm, hlt, hmin⟩ := h
      simp only [updateBest]
      rw [if_neg hl]
      refine ⟨List.mem_append.mpr (Or.inl hmem), hbl, hm, hlt, ?_⟩
      intro p hp hpl
      rcases List.mem_append.mp hp with hp' | hp'
      · exact hmin p hp' hpl
      · simp only [List.mem_singleton] at hp'
        subst hp'
        exact absurd hpl hl

lemma foldl_updateBest_inv (det : DetectionResult) :
    ∀ (l seen : List DetectionResult) (acc : Option (DetectionResult × ℤ)),
      MatchInv det seen acc →
      MatchInv det (seen ++ l) (l.foldl (updateBest det) acc) := by
  intro l
  induction l with
  | nil => intro seen acc h; simpa using h
  | cons p rest ih =>
    intro seen acc h
    have h2 := ih (seen ++ [p]) (updateBest det acc p) (updateBest_inv det p seen acc h)
    simpa using h2

/-- The candidate search satisfies the loop invariant over the full previous
list. -/
lemma bestMatch_spec (prevs : List DetectionResult) (det : DetectionResult) :
    MatchInv det prevs (bestMatch prevs det) := by
  have h := foldl_updateBest_inv det prevs [] none
    (fun p hp => absurd hp (List.not_mem_nil p))
  simpa [bestMatch] using h

lemma bestMatch_some_spec {prevs : List DetectionResult} {det b : DetectionResult}
    {m : ℤ} (h : bestMatch prevs det = some (b, m)) :
    b ∈ prevs ∧ b.label = det.label ∧ m = distSq det b ∧ m < 10000 ∧
      ∀ p ∈ prevs, p.label = det.label → m ≤ distSq det p := by
  have hs := bestMatch_spec prevs det
  rw [h] at hs
  exact hs

lemma bestMatch_none_spec {prevs : List DetectionResult} {det : DetectionResult}
    (h : bestMatch prevs det = none) :
    ∀ p ∈ prevs, p.label = det.label → 10000 ≤ distSq det p := by
  have hs := bestMatch_spec prevs det
  rw [h] at hs
  exact hs

lemma assignTrackingIds_cons_some {prevs : List DetectionResult}
    (counter : ℕ) {det b : DetectionResult} {m : ℤ}
    (rest : List DetectionResult) (h : bestMatch prevs det = some (b, m)) :
    assignTrackingIds prevs counter (det :: rest) =
      ({ det with trackId := b.trackId } ::
        (assignTrackingIds prevs counter rest).1,
       (assignTrackingIds prevs counter rest).2) := by
  cases hrec : assignTrackingIds prevs counter rest with
  | mk tail c => simp only [assignTrackingIds, h, hrec]

lemma assignTrackingIds_cons_none {prevs : List DetectionResult}
    (counter : ℕ) {det : DetectionResult}
    (rest : List DetectionResult) (h : bestMatch prevs det = none) :
    assignTrackingIds prevs counter (det :: rest) =
      ({ det with trackId := some (counter + 1) } ::
        (assignTrackingIds prevs (counter + 1) rest).1,
       (assignTrackingIds prevs (counter + 1) rest).2) := by
  cases hrec : assignTrackingIds prevs (counter + 1) rest with
  | mk tail c => simp only [assignTrackingIds, h, hrec]

/-- Every track id the tracker hands out is either inherited from a
same-label previous detection or a fresh id strictly above the incoming
counter value. -/
lemma assignTrackingIds_fresh (prevs : List DetectionResult) :
    ∀ (counter : ℕ) (cur : List DetectionResult),
      ∀ d ∈ (assignTrackingIds prevs counter cur).1,
        (∃ p ∈ prevs, p.label = d.label ∧ p.trackId = d.trackId) ∨
        (∃ k, d.trackId = some k ∧ counter < k) := by
  intro counter cur
  induction cur generalizing counter with
  | nil => intro d hd; simp [assignTrackingIds] at hd
  | cons c0 rest ih =>
    intro d hd
    cases hbm : bestMatch prevs c0 with
    | some bm =>
      obtain ⟨b, m⟩ := bm
      rw [assignTrackingIds_cons_some counter rest hbm] at hd
      rcases List.mem_cons.mp hd with hd' | hd'
      · obtain ⟨hmem, hbl, -, -, -⟩ := bestMatch_some_spec hbm
        subst hd'
        exact Or.inl ⟨b, hmem, hbl, rfl⟩
      · exact ih counter d hd'
    | none =>
      rw [assignTrackingIds_cons_none counter rest hbm] at hd
      rcases List.mem_cons.mp hd with hd' | hd'
      · subst hd'
        exact Or.inr ⟨counter + 1, rfl, Nat.lt_succ_self counter⟩
      · rcases ih (counter + 1) d hd' with h' | ⟨k, hk, hkk⟩
        · exact Or.inl h'
        · exact Or.inr ⟨k, hk, by omega⟩

/-- C10 witness at a concrete state. -/
theorem failed_frame_state_unchanged_witness :
    detectObjects
        { modelLoaded := true, isLoading := false, trackingId := 4,
          previousDetections := [testDet "person" 0 0 (some 4)] }
        (Except.error "inference failed") 9 =
      Except.ok
        ({ modelLoaded := true, isLoading := false, trackingId := 4,
           previousDetections := [testDet "person" 0 0 (some 4)] }, []) :=
  (failed_frame_state_unchanged _ "inference failed" 9 rfl).1

/-! ### C1, C6, C7: tracker claims -/

/-- C1: per frame, each current detection is considered in input order and
matched only against same-label previous detections; the minimum-distance
candidate is selected only when strictly under the 100-pixel threshold
(squared: 10000); a match inherits the candidate's track id, and otherwise a
fresh id is allocated by incrementing the counter, every freshly allocated id
being strictly above the incoming counter (hence previously unused). -/
theorem tracker_greedy_assignment_spec :
    (∀ (prevs : List DetectionResult) (det b : DetectionResult) (m : ℤ),
        bestMatch prevs det = some (b, m) →
          b ∈ prevs ∧ b.label = det.label ∧ m = distSq det b ∧ m < 10000 ∧
          ∀ p ∈ prevs, p.label = det.label → m ≤ distSq det p) ∧
    (∀ (prevs : List DetectionResult) (det : DetectionResult),
        bestMatch prevs det = none →
          ∀ p ∈ prevs, p.label = det.label → 10000 ≤ distSq det p) ∧
    (∀ (prevs : List DetectionResult) (counter : ℕ) (det b : DetectionResult)
        (m : ℤ) (rest : List DetectionResult),
        bestMatch prevs det = some (b, m) →
          assignTrackingIds prevs counter (det :: rest) =
            ({ det with trackId := b.trackId } ::
              (assignTrackingIds prevs counter rest).1,
             (assignTrackingIds prevs counter rest).2)) ∧
    (∀ (prevs : List DetectionResult) (counter : ℕ) (det : DetectionResult)
        (rest : List DetectionResult),
        bestMatch prevs det = none →
          assignTrackingIds prevs counter (det :: rest) =
            ({ det with trackId := some (counter + 1) } ::
              (assignTrackingIds prevs (counter + 1) rest).1,
             (assignTrackingIds prevs (counter + 1) rest).2)) ∧
    (∀ (prevs : List DetectionResult) (counter : ℕ) (cur : List DetectionResult),
        ∀ d ∈ (assignTrackingIds prevs counter cur).1,
          (∃ p ∈ prevs, p.label = d.label ∧ p.trackId = d.trackId) ∨
          (∃ k, d.trackId = some k ∧ counter < k)) :=
  ⟨fun _ _ _ _ h => bestMatch_some_spec h,
   fun _ _ h => bestMatch_none_spec h,
   fun _ counter _ _ _ rest h => assignTrackingIds_cons_some counter rest h,
   fun _ counter _ rest h => assignTrackingIds_cons_none counter rest h,
   fun prevs counter cur => assignTrackingIds_fresh prevs counter cur⟩

/-- C1 witness: a same-label previous detection 50 pixels away (squared
distance 2500) is selected and its track id 7 is inherited. -/
theorem tracker_greedy_assignment_spec_witness :
    testDet "person" 0 0 (some 7) ∈ [testDet "person" 0 0 (some 7)] ∧
    (testDet "person" 0 0 (some 7)).label = (testDet "person" 30 40 none).label ∧
    (2500 : ℤ) = distSq (testDet "person" 30 40 none) (testDet "person" 0 0 (some 7)) ∧
    (2500 : ℤ) < 10000 ∧
    assignTrackingIds [testDet "person" 0 0 (some 7)] 7 [testDet "person" 30 40 none] =
      ({ testDet "person" 30 40 none with trackId := some 7 } ::
        (assignTrackingIds [testDet "person" 0 0 (some 7)] 7 []).1,
       (assignTrackingIds [testDet "person" 0 0 (some 7)] 7 []).2) := by
  have h : bestMatch [testDet "person" 0 0 (some 7)] (testDet "person" 30 40 none)
      = some (testDet "person" 0 0 (some 7), 2500) := by decide
  obtain ⟨h1, h2, h3, h4, -⟩ := tracker_greedy_assignment_spec.1 _ _ _ _ h
  exact ⟨h1, h2, h3, h4, tracker_greedy_assignment_spec.2.2.1 _ 7 _ _ _ [] h⟩

/-- C6: a selected candidate always carries the current detection's label, so
a track id is never inherited across labels; concretely, a previous "person"
and current "car" and "dog" detections at the identical center each receive a
fresh id instead of the person's id 1. -/
theorem no_cross_label_match :
    (∀ (prevs : List DetectionResult) (det b : DetectionResult) (m : ℤ),
        bestMatch prevs det = some (b, m) → b.label = det.label) ∧
    assignTrackingIds [testDet "person" 50 50 (some 1)] 1
      [testDet "car" 50 50 none, testDet "dog" 50 50 none] =
      ([{ testDet "car" 50 50 none with trackId := some 2 },
        { testDet "dog" 50 50 none with trackId := some 3 }], 3) :=
  ⟨fun _ _ _ _ h => (bestMatch_some_spec h).2.1, by decide⟩

/-- C6 witness: the label equation extracted from a concrete same-label
match. -/
theorem no_cross_label_match_witness :
    (testDet "person" 1 1 (some 1)).label = (testDet "person" 2 2 none).label := by
  have h : bestMatch [testDet "person" 1 1 (some 1)] (testDet "person" 2 2 none)
      = some (testDet "person" 1 1 (some 1), 2) := by decide
  exact no_cross_label_match.1 _ _ _ _ h

/-- C7: matching is not exclusive — two current detections in one frame, each
within the threshold of the same single previous detection and each having it
as its own nearest same-label candidate, both inherit its track id 5. -/
theorem non_exclusive_matching :
    distSq (testDet "person" 10 0 none) (testDet "person" 0 0 (some 5)) < 10000 ∧
    distSq (testDet "person" 0 10 none) (testDet "person" 0 0 (some 5)) < 10000 ∧
    bestMatch [testDet "person" 0 0 (some 5)] (testDet "person" 10 0 none) =
      some (testDet "person" 0 0 (some 5), 100) ∧
    bestMatch [testDet "person" 0 0 (some 5)] (testDet "person" 0 10 none) =
      some (testDet "person" 0 0 (some 5), 100) ∧
    assignTrackingIds [testDet "person" 0 0 (some 5)] 5
      [testDet "person" 10 0 none, testDet "person" 0 10 none] =
      ([{ testDet "person" 10 0 none with trackId := some 5 },
        { testDet "person" 0 10 none with trackId := some 5 }], 5) := by
  decide

/-! ### ROI helper lemmas (for C3, C4) -/

lemma violationStep_pos (ts : ℕ) (det : DetectionResult) (st : ROIState)
    (zone : ROIZone) (h1 : zone.isActive = true)
    (h2 : zone.type = ZoneType.restricted) (h3 : inZone det zone = true) :
    violationStep ts det st zone =
      { alerts := mkAlert ts det zone :: st.alerts.take 9
        zones := st.zones.map fun z =>
          if z.id = zone.id then { z with alertCount := z.alertCount + 1 }
          else z } := by
  unfold violationStep
  rw [if_neg (by simp [h1]), if_pos ⟨h3, h2⟩]

lemma violationStep_neg (ts : ℕ) (det : DetectionResult) (st : ROIState)
    (zone : ROIZone)
    (h : ¬(zone.isActive = true ∧ zone.type = ZoneType.restricted ∧
        inZone det zone = true)) :
    violationStep ts det st zone = st := by
  unfold violationStep
  by_cases h1 : zone.isActive = false
  · rw [if_pos h1]
  · rw [if_neg h1]
    have h1' : zone.isActive = true := by simp at h1; exact h1
    rw [if_neg ?_]
    rintro ⟨hin, htyp⟩
    exact h ⟨h1', htyp, hin⟩

/-- Zone evolution order: same id, alert counter not decreased. -/
def ZLe (z z' : ROIZone) : Prop := z.id = z'.id ∧ z.alertCount ≤ z'.alertCount

lemma forall2_ZLe_refl (l : List ROIZone) : List.Forall₂ ZLe l l := by
  induction l with
  | nil => exact List.Forall₂.nil
  | cons z rest ih => exact List.Forall₂.cons ⟨rfl, le_refl _⟩ ih

lemma forall2_ZLe_trans {a b c : List ROIZone} (h1 : List.Forall₂ ZLe a b)
    (h2 : List.Forall₂ ZLe b c) : List.Forall₂ ZLe a c := by
  induction h1 generalizing c with
  | nil => cases h2; exact List.Forall₂.nil
  | cons hz _ ih =>
    cases h2 with
    | cons hz' hrest' =>
      exact List.Forall₂.cons ⟨hz.1.trans hz'.1, hz.2.trans hz'.2⟩ (ih hrest')

lemma map_bump_ZLe (l : List ROIZone) (id0 : String) :
    List.Forall₂ ZLe l
      (l.map fun z =>
        if z.id = id0 then { z with alertCount := z.alertCount + 1 } else z) := by
  induction l with
  | nil => exact List.Forall₂.nil
  | cons z rest ih =>
    refine List.Forall₂.cons ?_ ih
    show ZLe z
      (if z.id = id0 then { z with alertCount := z.alertCount + 1 } else z)
    by_cases hz : z.id = id0
    · rw [if_pos hz]; exact ⟨rfl, Nat.le_succ _⟩
    · rw [if_neg hz]; exact ⟨rfl, le_refl _⟩

lemma violationStep_ZLe (ts : ℕ) (det : DetectionResult) (st : ROIState)
    (zone : ROIZone) :
    List.Forall₂ ZLe st.zones (violationStep ts det st zone).zones := by
  by_cases hc : zone.isActive = true ∧ zone.type = ZoneType.restricted ∧
      inZone det zone = true
  · rw [violationStep_pos ts det st zone hc.1 hc.2.1 hc.2.2]
    exact map_bump_ZLe st.zones zone.id
  · rw [violationStep_neg ts det st zone hc]
    exact forall2_ZLe_refl _

lemma foldl_violationStep_ZLe (ts : ℕ) (det : DetectionResult)
    (zs : List ROIZone) :
    ∀ st : ROIState,
      List.Forall₂ ZLe st.zones ((zs.foldl (violationStep ts det) st).zones) := by
  induction zs with
  | nil => intro st; exact forall2_ZLe_refl _
  | cons z rest ih =>
    intro st
    exact forall2_ZLe_trans (violationStep_ZLe ts det st z)
      (ih (violationStep ts det st z))

lemma foldl_frames_ZLe (ts : ℕ) (zs : List ROIZone)
    (dets : List DetectionResult) :
    ∀ st : ROIState,
      List.Forall₂ ZLe st.zones
        ((dets.foldl (fun s det => zs.foldl (violationStep ts det) s) st).zones) := by
  induction dets with
  | nil => intro st; exact forall2_ZLe_refl _
  | cons d rest ih =>
    intro st
    exact forall2_ZLe_trans (foldl_violationStep_ZLe ts d zs st) (ih _)

/-- A detection whose recomputed center (150, 150) lies inside the initial
restricted zone. -/
def intruder : DetectionResult := testDet "person" 150 150 none

/-- The initial restricted zone with its alert counter at `c`. -/
def bumpA (c : ℕ) : ROIZone := { zoneA with alertCount := c }

lemma frame_step (c : ℕ) (A : List Alert) (ts : ℕ) :
    checkViolations ts ⟨[bumpA c, zoneB], A⟩ [intruder] =
      ⟨[bumpA (c + 1), zoneB], mkAlert ts intruder (bumpA c) :: A.take 9⟩ := by
  norm_num [checkViolations, violationStep, inZone, bumpA, zoneA, zoneB,
    testDet, intruder, mkAlert]
  decide

/-- Eleven successive frames, each holding the single intruding detection,
starting from the initial zone configuration with an empty alert history:
eleven sequential restricted-zone violations. -/
def elevenRun : ROIState :=
  checkViolations 11 (checkViolations 10 (checkViolations 9 (checkViolations 8
    (checkViolations 7 (checkViolations 6 (checkViolations 5 (checkViolations 4
      (checkViolations 3 (checkViolations 2 (checkViolations 1
        ⟨initialZones, []⟩ [intruder]) [intruder]) [intruder]) [intruder])
      [intruder]) [intruder]) [intruder]) [intruder]) [intruder]) [intruder])
    [intruder]

/-! ### C3: ROI alert generation -/

/-- C3: a zone generates an alert on a detection exactly when it is active,
of restricted type, and the detection center — inclusive of the rectangle
boundaries — lies inside it; every generated alert has severity high, and an
inactive zone never changes the state. -/
theorem roi_alert_iff :
    (∀ (ts : ℕ) (det : DetectionResult) (st : ROIState) (zone : ROIZone),
        (zone.isActive = true ∧ zone.type = ZoneType.restricted ∧
            inZone det zone = true →
          violationStep ts det st zone =
            { alerts := mkAlert ts det zone :: st.alerts.take 9
              zones := st.zones.map fun z =>
                if z.id = zone.id then { z with alertCount := z.alertCount + 1 }
                else z }) ∧
        (¬(zone.isActive = true ∧ zone.type = ZoneType.restricted ∧
            inZone det zone = true) →
          violationStep ts det st zone = st)) ∧
    (∀ (ts : ℕ) (det : DetectionResult) (zone : ROIZone),
        (mkAlert ts det zone).severity = Severity.high) ∧
    (∀ (det : DetectionResult) (zone : ROIZone),
        inZone det zone = true ↔
          zone.x ≤ (det.x : ℚ) + (det.width : ℚ) / 2 ∧
          (det.x : ℚ) + (det.width : ℚ) / 2 ≤ zone.x + zone.width ∧
          zone.y ≤ (det.y : ℚ) + (det.height : ℚ) / 2 ∧
          (det.y : ℚ) + (det.height : ℚ) / 2 ≤ zone.y + zone.height) ∧
    (∀ (ts : ℕ) (det : DetectionResult) (st : ROIState) (zone : ROIZone),
        zone.isActive = false → violationStep ts det st zone = st) := by
  refine ⟨?_, fun _ _ _ => rfl, ?_, ?_⟩
  · intro ts det st zone
    exact ⟨fun ⟨h1, h2, h3⟩ => violationStep_pos ts det st zone h1 h2 h3,
      violationStep_neg ts det st zone⟩
  · intro det zone
    simp only [inZone, Bool.and_eq_true, decide_eq_true_eq]
    tauto
  · intro ts det st zone h
    unfold violationStep
    rw [if_pos h]

/-- C3 witness: the intruding detection in the initial configuration fires
exactly the restricted zone. -/
theorem roi_alert_iff_witness :
    violationStep 1 intruder ⟨initialZones, []⟩ zoneA =
      { alerts := [mkAlert 1 intruder zoneA]
        zones := [bumpA 1, zoneB] } := by
  have h := (roi_alert_iff.1 1 intruder ⟨initialZones, []⟩ zoneA).1
    ⟨rfl, rfl, by norm_num [inZone, zoneA, intruder, testDet]⟩
  rw [h]
  decide

/-! ### C4: alert counter and bounded history -/

/-- C4: every restricted-zone violation bumps the matching zone's counter by
exactly one and prepends one alert to the history truncated to its 9 newest
entries, so the history never exceeds 10; zone counters never decrease across
frames; and after 11 sequential violations the history holds exactly the 10
most recent alerts (timestamps 11 down to 2, the oldest discarded) while the
zone counter reads 11. -/
theorem alert_counter_and_history :
    (∀ (ts : ℕ) (det : DetectionResult) (st : ROIState) (zone : ROIZone),
        zone.isActive = true → zone.type = ZoneType.restricted →
        inZone det zone = true →
          (violationStep ts det st zone).zones =
            st.zones.map (fun z =>
              if z.id = zone.id then { z with alertCount := z.alertCount + 1 }
              else z) ∧
          (violationStep ts det st zone).alerts =
            mkAlert ts det zone :: st.alerts.take 9) ∧
    (∀ (ts : ℕ) (det : DetectionResult) (st : ROIState) (zone : ROIZone),
        st.alerts.length ≤ 10 →
        (violationStep ts det st zone).alerts.length ≤ 10) ∧
    (∀ (ts : ℕ) (st : ROIState) (dets : List DetectionResult),
        List.Forall₂ ZLe st.zones (checkViolations ts st dets).zones) ∧
    (elevenRun.zones = [bumpA 11, zoneB] ∧
     elevenRun.alerts.length = 10 ∧
     elevenRun.alerts =
       [mkAlert 11 intruder zoneA, mkAlert 10 intruder zoneA,
        mkAlert 9 intruder zoneA, mkAlert 8 intruder zoneA,
        mkAlert 7 intruder zoneA, mkAlert 6 intruder zoneA,
        mkAlert 5 intruder zoneA, mkAlert 4 intruder zoneA,
        mkAlert 3 intruder zoneA, mkAlert 2 intruder zoneA]) := by
  refine ⟨?_, ?_, ?_, ?_⟩
  · intro ts det st zone h1 h2 h3
    rw [violationStep_pos ts det st zone h1 h2 h3]
    exact ⟨rfl, rfl⟩
  · intro ts det st zone h
    by_cases hc : zone.isActive = true ∧ zone.type = ZoneType.restricted ∧
        inZone det zone = true
    · rw [violationStep_pos ts det st zone hc.1 hc.2.1 hc.2.2]
      simp only [List.length_cons, List.length_take]
      omega
    · rw [violationStep_neg ts det st zone hc]
      exact h
  · intro ts st dets
    exact foldl_frames_ZLe ts st.zones dets st
  · rw [show elevenRun =
        checkViolations 11 (checkViolations 10 (checkViolations 9
          (checkViolations 8 (checkViolations 7 (checkViolations 6
            (checkViolations 5 (checkViolations 4 (checkViolations 3
              (checkViolations 2 (checkViolations 1
                ⟨[bumpA 0, zoneB], []⟩ [intruder]) [intruder]) [intruder])
              [intruder]) [intruder]) [intruder]) [intruder]) [intruder])
          [intruder]) [intruder]) [intruder] from rfl]
    rw [frame_step 0 [] 1, frame_step 1 _ 2, frame_step 2 _ 3, frame_step 3 _ 4,
      frame_step 4 _ 5, frame_step 5 _ 6, frame_step 6 _ 7, frame_step 7 _ 8,
      frame_step 8 _ 9, frame_step 9 _ 10, frame_step 10 _ 11]
    refine ⟨rfl, ?_, ?_⟩ <;> decide

/-- C4 witness: one violation in a one-zone configuration increments the
counter to 1 and records one alert. -/
theorem alert_counter_and_history_witness :
    (violationStep 3 intruder ⟨[zoneA], []⟩ zoneA).zones = [bumpA 1] ∧
    (violationStep 3 intruder ⟨[zoneA], []⟩ zoneA).alerts =
      [mkAlert 3 intruder zoneA] := by
  have h := alert_counter_and_history.1 3 intruder ⟨[zoneA], []⟩ zoneA rfl rfl
    (by norm_num [inZone, zoneA, intruder, testDet])
  refine ⟨?_, ?_⟩
  · rw [h.1]; decide
  · rw [h.2]; rfl

end OD
